import Mathlib

/-!
Verification development for the CamHome NVR server (`server.js`).

The definitions below are a shallow embedding of the recording supervisor,
the stream-address resolver, the live-frame proxy and the playback path
resolution of `server.js`.  JavaScript strings are modelled as Lean
`String`s, JavaScript truthiness of optional strings by `truthy`, the
in-memory `recorders` object by an association list with JS-object update
semantics, and the asynchronous event handlers (`proc.on('close')`,
timers, HTTP routes) by a small-step transition relation `Step` on the
supervisor state.
-/

namespace CamHome

/-- JS truthiness of an optional string value: `undefined`/`null`/`""` are falsy. -/
def truthy : Option String → Bool
  | none => false
  | some s => s ≠ ""

/-- Camera status enum from `types.ts` / `server.js`. -/
inductive CamStatus
  | ONLINE
  | OFFLINE
  | RECORDING
  | ERROR
deriving DecidableEq, Repr

/-- A camera record as read from `cameras.json` (the fields `server.js` uses). -/
structure Camera where
  id : String
  name : String
  streamUrl : Option String
  username : Option String
  password : Option String
  status : CamStatus
deriving DecidableEq, Repr

/-- Per-character action of `sanitize` (server.js:483-485):
`str.replace(/[^a-z0-9]/gi, '_').toLowerCase()` replaces every character
that is not an ASCII letter or digit by `'_'` and lowercases the rest;
character-wise this is: alphanumeric characters are lowercased, all other
characters become `'_'`. -/
def sanitizeChar (c : Char) : Char :=
  if c.isAlphanum then c.toLower else '_'

/-- `sanitize` from server.js:483-485. -/
def sanitize (s : String) : String :=
  String.mk (s.data.map sanitizeChar)

/-- `getStreamUrlWithAuth` from server.js:487-494.  Under the
`url.startsWith('rtsp://')` guard, `url.replace('rtsp://', ...)` replaces
the leading scheme prefix, i.e. it prepends `rtsp://user:pass@` to the
remainder of the address. -/
def getStreamUrlWithAuth (c : Camera) : Option String :=
  match c.streamUrl with
  | none => none
  | some url =>
    if url = "" then none
    else if truthy c.username && truthy c.password
        && !(url.data.contains '@')
        && ("rtsp://".data.isPrefixOf url.data) then
      some ("rtsp://" ++ c.username.getD "" ++ ":" ++ c.password.getD "" ++ "@"
          ++ String.mk (url.data.drop 7))
    else some url

/-! ## Recording supervisor (server.js:496-590) -/

/-- Exit code delivered to `proc.on('close')`: `some n` is a numeric exit
code, `none` is the JS `null` passed when the process was terminated by a
signal. -/
abbrev ExitCode := Option Int

/-- One entry of the in-memory `recorders` registry (server.js:544-547):
the owned process handle (modelled by its pid) and `Date.now()` at spawn. -/
structure RecEntry where
  pid : Nat
  startTime : Nat
deriving DecidableEq, Repr

/-- The part of `config.json` the supervisor reads. -/
structure Config where
  recordingPath : Option String
deriving DecidableEq, Repr

/-- Environment oracles for the effects the supervisor performs:
whether ffmpeg is installed (the `IS_FFMPEG_INSTALLED` global), which
`fs.mkdirSync` calls throw, which `spawn` calls throw synchronously, and
which `process.kill` calls throw (process already dead). -/
structure Env where
  ffmpegInstalled : Bool
  mkdirFails : String → Bool
  spawnFails : Nat → Bool
  killFails : Nat → Bool

/-- The supervisor state: the `recorders` object (association list with
JS-object update semantics), the persisted `cameras.json`, the persisted
`config.json`, the set of folders existing on disk, the pending restart
timers (camera ids, multiset), the camera captured by each spawned
process's event closures, the pids whose `close` event has fired, the pids
that were sent `SIGTERM`, the next fresh pid, the clock (`Date.now()`, in
ms), and a count of logged errors. -/
structure SupState where
  recorders : List (String × RecEntry)
  cams : List Camera
  config : Config
  folders : List String
  timers : List String
  procCam : List (Nat × Camera)
  closed : List Nat
  signaled : List Nat
  nextPid : Nat
  now : Nat
  errors : Nat
deriving DecidableEq, Repr

/-- Reading `recorders[id]` from the registry. -/
def lookupRec (l : List (String × RecEntry)) (id : String) : Option RecEntry :=
  match l.find? (fun p => p.1 == id) with
  | none => none
  | some p => some p.2

/-- The effect of `delete recorders[id]`. -/
def eraseRec (l : List (String × RecEntry)) (id : String) : List (String × RecEntry) :=
  l.filter (fun p => p.1 != id)

/-- The effect of `recorders[id] = e`: replace the entry if the key is
present, otherwise append it (JS object assignment). -/
def setRec (l : List (String × RecEntry)) (id : String) (e : RecEntry) :
    List (String × RecEntry) :=
  if (l.find? (fun p => p.1 == id)).isSome then
    l.map (fun p => if p.1 == id then (id, e) else p)
  else l ++ [(id, e)]

/-- The `stopRecording` function (server.js:569-578): if a registry entry
exists for the id, attempt `process.kill('SIGTERM')` — a kill exception
(process already dead) is caught and ignored, so both branches of the
try/catch produce the same state — and `delete` the registry entry.  The
process's `close` event is not awaited. -/
def stopRecording (env : Env) (s : SupState) (cameraId : String) : SupState :=
  match lookupRec s.recorders cameraId with
  | none => s
  | some e =>
    if env.killFails e.pid then
      { s with signaled := e.pid :: s.signaled
               recorders := eraseRec s.recorders cameraId }
    else
      { s with signaled := e.pid :: s.signaled
               recorders := eraseRec s.recorders cameraId }

/-- The folder `path.join(config.recordingPath, sanitize(camera.name))`
(server.js:510). -/
def camFolderOf (cfg : Config) (cam : Camera) : String :=
  cfg.recordingPath.getD "" ++ "/" ++ sanitize cam.name

/-- The spawn-and-register tail of `startRecording` (server.js:536-547):
`spawn('ffmpeg', args)` inside try/catch — a synchronous spawn exception is
logged and nothing is registered — then the registry entry is assigned
with the new process handle and `startTime: Date.now()`. -/
def spawnStep (env : Env) (cam : Camera) (s : SupState) : SupState :=
  if env.spawnFails s.nextPid then { s with errors := s.errors + 1 }
  else
    { s with
        procCam := (s.nextPid, cam) :: s.procCam
        recorders := setRec s.recorders cam.id ⟨s.nextPid, s.now⟩
        nextPid := s.nextPid + 1 }

/-- The body of `startRecording` after the stop-existing-session step
(server.js:506-566): status check, stream-address resolution, folder
existence check and creation (a creation failure is logged and aborts the
start), then spawn and register. -/
def startBody (env : Env) (cam : Camera) (s : SupState) : SupState :=
  if cam.status ≠ CamStatus.ONLINE ∧ cam.status ≠ CamStatus.RECORDING then s
  else
    match getStreamUrlWithAuth cam with
    | none => s
    | some _ =>
      let camFolder := camFolderOf s.config cam
      if s.folders.contains camFolder then spawnStep env cam s
      else if env.mkdirFails camFolder then { s with errors := s.errors + 1 }
      else spawnStep env cam { s with folders := camFolder :: s.folders }

/-- The `startRecording` function (server.js:496-567): skip when ffmpeg is
missing, skip when `config.recordingPath` is falsy, synchronously stop an
existing session for the same camera id, then run the start body. -/
def startRecording (env : Env) (cam : Camera) (s : SupState) : SupState :=
  if env.ffmpegInstalled = false then s
  else if truthy s.config.recordingPath = false then s
  else if (lookupRec s.recorders cam.id).isSome then
    startBody env cam (stopRecording env s cam.id)
  else startBody env cam s

/-- The `proc.on('close')` handler (server.js:549-563) of a process whose
closure captured `cam`: first `delete recorders[camera.id]`, then compute
`wasRunningLongEnough = (Date.now() - (recorders[camera.id]?.startTime || 0)) > 10000`
— note the registry is read again only after the delete — and push a
restart timer when the exit code is non-zero or the uptime check passes. -/
def onClose (cam : Camera) (code : ExitCode) (s : SupState) : SupState :=
  let recs := eraseRec s.recorders cam.id
  let startTime := ((lookupRec recs cam.id).map RecEntry.startTime).getD 0
  let wasRunningLongEnough := decide (s.now - startTime > 10000)
  if code ≠ some 0 ∨ wasRunningLongEnough = true then
    { s with recorders := recs, timers := cam.id :: s.timers }
  else { s with recorders := recs }

/-- Delivery of a `close` event for pid `pid`: the process is marked
exited and the close handler runs. -/
def closeEvent (cam : Camera) (pid : Nat) (code : ExitCode) (s : SupState) : SupState :=
  onClose cam code { s with closed := pid :: s.closed }

/-- The `proc.on('error')` handler (server.js:539-542): log the spawn
error and `delete recorders[camera.id]`. -/
def procErrorEvent (cam : Camera) (s : SupState) : SupState :=
  { s with recorders := eraseRec s.recorders cam.id, errors := s.errors + 1 }

/-- The restart timer callback (server.js:557-561): re-read the current
`cameras.json`, look up the camera id captured by the closure, and restart
only when the camera still exists; the fired timer itself is consumed. -/
def fireTimer (env : Env) (camId : String) (s : SupState) : SupState :=
  let s1 := { s with timers := s.timers.erase camId }
  match s1.cams.find? (fun c => c.id == camId) with
  | none => s1
  | some currentCam => startRecording env currentCam s1

/-- The `POST /api/cameras` route (server.js:663-680): start every new or
changed camera, stop every removed camera, then persist the new list. -/
def postCameras (env : Env) (newCams : List Camera) (s : SupState) : SupState :=
  let oldCams := s.cams
  let s1 := newCams.foldl (fun st newCam =>
    match oldCams.find? (fun c => c.id == newCam.id) with
    | none => startRecording env newCam st
    | some oldCam =>
      if oldCam.streamUrl ≠ newCam.streamUrl ∨ newCam.status ≠ oldCam.status then
        startRecording env newCam st
      else st) s
  let s2 := oldCams.foldl (fun st oldCam =>
    if (newCams.find? (fun c => c.id == oldCam.id)).isSome then st
    else stopRecording env st oldCam.id) s1
  { s2 with cams := newCams }

/-- The `initializeRecorder` function (server.js:580-590): when ffmpeg is
present, read `cameras.json` and issue a start for every camera. -/
def initializeRecorder (env : Env) (s : SupState) : SupState :=
  if env.ffmpegInstalled = false then s
  else s.cams.foldl (fun st c => startRecording env c st) s

/-- The supervisor state at boot: empty registry, no timers, no processes. -/
def initState (cams : List Camera) (cfg : Config) (t : Nat) : SupState :=
  { recorders := [], cams := cams, config := cfg, folders := [], timers := [],
    procCam := [], closed := [], signaled := [], nextPid := 0, now := t, errors := 0 }

/-- One externally triggered step of the supervisor: a `POST /api/cameras`
request, the boot/config-change initialization sweep, a config write, the
asynchronous `close` or `error` event of a spawned process, the firing of
a pending restart timer, or the clock advancing. -/
inductive Step (env : Env) : SupState → SupState → Prop
  | post (s : SupState) (newCams : List Camera) :
      Step env s (postCameras env newCams s)
  | initSweep (s : SupState) :
      Step env s (initializeRecorder env s)
  | configChange (s : SupState) (cfg : Config) :
      Step env s (initializeRecorder env { s with config := cfg })
  | configSet (s : SupState) (cfg : Config) :
      Step env s { s with config := cfg }
  | close (s : SupState) (pid : Nat) (cam : Camera) (code : ExitCode)
      (hmem : (pid, cam) ∈ s.procCam) (hnc : pid ∉ s.closed) :
      Step env s (closeEvent cam pid code s)
  | procErr (s : SupState) (pid : Nat) (cam : Camera)
      (hmem : (pid, cam) ∈ s.procCam) :
      Step env s (procErrorEvent cam s)
  | fire (s : SupState) (camId : String) (hmem : camId ∈ s.timers) :
      Step env s (fireTimer env camId s)
  | tick (s : SupState) (d : Nat) :
      Step env s { s with now := s.now + d }

/-- Reachability from a given state under the supervisor's step relation. -/
inductive Reachable (env : Env) (s0 : SupState) : SupState → Prop
  | refl : Reachable env s0 s0
  | step {s s' : SupState} :
      Reachable env s0 s → Step env s s' → Reachable env s0 s'

/-! ## Live-frame proxy (server.js:733-827) -/

/-- The components of a parsed `URL` object that the proxy manipulates:
scheme, the credential fields of the authority component, and the rest of
the address (host, port, path, query). -/
structure UrlObj where
  scheme : String
  username : String
  password : String
  hostRest : String
deriving DecidableEq, Repr

/-- Serialization of a `URL` object back to a string (`urlObj.toString()`):
credentials appear in the authority component when either field is set. -/
def urlToString (u : UrlObj) : String :=
  u.scheme ++ "://" ++
    (if u.username = "" ∧ u.password = "" then "" else
      u.username ++ (if u.password = "" then "" else ":" ++ u.password) ++ "@") ++
    u.hostRest

/-- The credential embedding of the ffmpeg fallback (server.js:779-782):
`if (!urlObj.username) urlObj.username = username;` and likewise for the
password — each credential component is set only when it is not already
present in the address. -/
def embedCreds (u : UrlObj) (username password : String) : UrlObj :=
  { u with
      username := if u.username = "" then username else u.username
      password := if u.password = "" then password else u.password }

/-- Splitting a character list at the first occurrence of a pattern:
`some (pre, post)` with the list equal to `pre ++ pat ++ post`, or `none`
when the pattern does not occur. -/
def splitFirst : List Char → List Char → Option (List Char × List Char)
  | [], pat => if pat.isEmpty then some ([], []) else none
  | c :: rest, pat =>
    if pat.isPrefixOf (c :: rest) then some ([], (c :: rest).drop pat.length)
    else
      match splitFirst rest pat with
      | some (pre, post) => some (c :: pre, post)
      | none => none

/-- The JS `String.prototype.replace` with a plain-string pattern: replace
the first occurrence only. -/
def replaceFirst (s pat repl : String) : String :=
  match splitFirst s.data pat.data with
  | some (pre, post) => String.mk (pre ++ repl.data ++ post)
  | none => s

/-- The string-level credential fallback (server.js:786) used when URL
parsing throws: `url.replace('://', '://user:pass@')`. -/
def naiveAuthUrl (url username password : String) : String :=
  replaceFirst url "://" ("://" ++ username ++ ":" ++ password ++ "@")

/-- The `authUrl` computed for the ffmpeg fallback (server.js:775-788):
parse the address and embed the credentials component-wise; when `new URL`
throws, fall back to the string replacement. -/
def proxyAuthUrl (url : String) (parsed : Option UrlObj) (username password : String) :
    String :=
  match parsed with
  | some obj => urlToString (embedCreds obj username password)
  | none => naiveAuthUrl url username password

/-- The observable outcome of the tier-1 direct fetch: a successful (2xx)
response with body bytes and declared content type, a non-success
response, or a fetch exception (abort after the 3 s timeout, network
error). -/
inductive Tier1Result
  | ok (body : List Nat) (contentType : Option String)
  | httpError (status : Nat)
  | fetchFailed
deriving DecidableEq, Repr

/-- Whether the tier-1 response was a success (`response.ok`). -/
def Tier1Result.isOk : Tier1Result → Bool
  | .ok _ _ => true
  | _ => false

/-- The outcome of a `GET /api/proxy` request: the top-level catch (500
with the error message, e.g. a missing `url` parameter), the tier-1 bytes
served directly, a single tier-2 ffmpeg invocation on the given address,
or the distinct 502 failure when ffmpeg is unavailable. -/
inductive ProxyOutcome
  | serverError (msg : String)
  | direct (body : List Nat) (contentType : String)
  | ffmpegFallback (authUrl : String)
  | unavailable (status : Nat) (msg : String)
deriving DecidableEq, Repr

/-- Number of tier-2 external capture invocations an outcome performs. -/
def tier2Invocations : ProxyOutcome → Nat
  | .ffmpegFallback _ => 1
  | _ => 0

/-- The decision logic of the `GET /api/proxy` handler (server.js:733-827):
reject a missing `url`; serve a successful tier-1 response verbatim; on
any tier-1 failure or non-success response run exactly one ffmpeg
fallback (embedding the supplied credentials into the address when both
are given), or — when ffmpeg is not installed — answer with the distinct
502 "could not connect and FFMPEG is missing" error. -/
def proxyHandler (ffmpegInstalled : Bool) (url : Option String) (parsed : Option UrlObj)
    (username password : Option String) (t1 : Tier1Result) : ProxyOutcome :=
  if truthy url = false then .serverError "URL missing"
  else
    match t1 with
    | .ok body ct => .direct body (ct.getD "image/jpeg")
    | _ =>
      if ffmpegInstalled then
        let authUrl :=
          if truthy username && truthy password then
            proxyAuthUrl (url.getD "") parsed (username.getD "") (password.getD "")
          else url.getD ""
        .ffmpegFallback authUrl
      else
        .unavailable 502 "Proxy failed: Could not connect to camera and FFMPEG is missing."

/-! ## Playback path resolution (server.js:632-658) -/

/-- The POSIX `path.basename`: ignore trailing separators, return the last
path component (the part after the last remaining separator). -/
def basename (s : String) : String :=
  String.mk ((((s.data.reverse).dropWhile (fun c => c = '/')).takeWhile
    (fun c => c ≠ '/')).reverse)

/-- The character set `sanitize` produces: lowercase ASCII letters,
digits, and underscore. -/
def goodChar (c : Char) : Bool :=
  c.isLower || c.isDigit || (c = '_')

/-- Normalization of an absolute path given as its component list, as
`path.join` performs it: empty and `.` components vanish, `..` removes
the previous component and is dropped at the root. -/
def normComps (comps : List String) : List String :=
  comps.foldl (fun acc c =>
    if c = "" ∨ c = "." then acc
    else if c = ".." then acc.dropLast
    else acc ++ [c]) []

/-- The component list of the file path resolved by
`GET /api/playback/:cam/:file` (server.js:632-638):
`path.join(config.recordingPath, sanitize(cam), path.basename(file))`,
with the recording root given by its component list. -/
def playbackComps (rootComps : List String) (cam file : String) : List String :=
  rootComps ++ [sanitize cam, basename file]

/-- The component list of the thumbnail sidecar path resolved by
`GET /api/playback/:cam/:file/thumb` (server.js:640-658): the same pair
with `.jpg` appended to the file component. -/
def thumbComps (rootComps : List String) (cam file : String) : List String :=
  rootComps ++ [sanitize cam, basename file ++ ".jpg"]

/-- The key list of the registry of a supervisor state. -/
def recKeys (s : SupState) : List String := s.recorders.map Prod.fst

/-! ## Concrete instances used in concrete runs of the model -/

/-- A concrete environment: ffmpeg installed, no filesystem or process
operation fails. -/
def happyEnv : Env := ⟨true, fun _ => false, fun _ => false, fun _ => false⟩

/-- A concrete online camera. -/
def cam1 : Camera := ⟨"c1", "Cam 1", some "rtsp://h/s", none, none, CamStatus.ONLINE⟩

/-- A concrete offline camera. -/
def camOff : Camera := ⟨"c2", "Cam 2", some "rtsp://h/s2", none, none, CamStatus.OFFLINE⟩

/-- A concrete configuration with a recording root set. -/
def cfg1 : Config := ⟨some "/rec"⟩

/-- A concrete supervisor state with one live session for `c1` whose
process (pid 7) started at epoch-ms 1700000000000, observed at epoch-ms
1700000003000, i.e. after 3 s of uptime. -/
def st3s : SupState :=
  { recorders := [("c1", ⟨7, 1700000000000⟩)], cams := [cam1], config := cfg1,
    folders := ["/rec/cam_1"], timers := [], procCam := [(7, cam1)], closed := [],
    signaled := [], nextPid := 8, now := 1700000003000, errors := 0 }

/-! ## Character-level lemmas for `sanitize` -/

theorem uint32_le_iff (a b : UInt32) : (a ≤ b) ↔ a.toNat ≤ b.toNat := by
  rw [UInt32.le_def, BitVec.le_def]
  rfl

theorem toNat_ofNat_small {n : Nat} (h : n < 55296) : (Char.ofNat n).toNat = n := by
  have hv : n.isValidChar := Or.inl h
  rw [Char.ofNat, dif_pos hv]
  rfl

theorem isUpper_iff (c : Char) : c.isUpper = true ↔ 65 ≤ c.toNat ∧ c.toNat ≤ 90 := by
  unfold Char.isUpper
  rw [Bool.and_eq_true, decide_eq_true_eq, decide_eq_true_eq]
  rw [ge_iff_le, uint32_le_iff, uint32_le_iff]
  exact Iff.rfl

theorem isLower_iff (c : Char) : c.isLower = true ↔ 97 ≤ c.toNat ∧ c.toNat ≤ 122 := by
  unfold Char.isLower
  rw [Bool.and_eq_true, decide_eq_true_eq, decide_eq_true_eq]
  rw [ge_iff_le, uint32_le_iff, uint32_le_iff]
  exact Iff.rfl

theorem isDigit_iff (c : Char) : c.isDigit = true ↔ 48 ≤ c.toNat ∧ c.toNat ≤ 57 := by
  unfold Char.isDigit
  rw [Bool.and_eq_true, decide_eq_true_eq, decide_eq_true_eq]
  rw [ge_iff_le, uint32_le_iff, uint32_le_iff]
  exact Iff.rfl

theorem toLower_of_isUpper {c : Char} (h : c.isUpper = true) :
    c.toLower = Char.ofNat (c.toNat + 32) := by
  obtain ⟨h1, h2⟩ := (isUpper_iff c).mp h
  unfold Char.toLower
  rw [if_pos ⟨h1, h2⟩]

theorem toLower_of_not_upperRange {c : Char} (h : ¬ (65 ≤ c.toNat ∧ c.toNat ≤ 90)) :
    c.toLower = c := by
  unfold Char.toLower
  rw [if_neg h]

theorem sanitizeChar_good (c : Char) : goodChar (sanitizeChar c) = true := by
  unfold sanitizeChar
  by_cases h : c.isAlphanum
  · rw [if_pos h]
    have h' := h
    unfold Char.isAlphanum Char.isAlpha at h'
    rcases Bool.or_eq_true _ _ |>.mp h' with h2 | hdig
    · rcases Bool.or_eq_true _ _ |>.mp h2 with hup | hlo
      · obtain ⟨h1, h2'⟩ := (isUpper_iff c).mp hup
        rw [toLower_of_isUpper hup]
        have ht : (Char.ofNat (c.toNat + 32)).toNat = c.toNat + 32 :=
          toNat_ofNat_small (by omega)
        unfold goodChar
        have hl : (Char.ofNat (c.toNat + 32)).isLower = true := by
          rw [isLower_iff, ht]
          omega
        rw [hl]
        rfl
      · obtain ⟨h1, h2'⟩ := (isLower_iff c).mp hlo
        rw [toLower_of_not_upperRange (by omega)]
        unfold goodChar
        rw [hlo]
        rfl
    · obtain ⟨h1, h2'⟩ := (isDigit_iff c).mp hdig
      rw [toLower_of_not_upperRange (by omega)]
      unfold goodChar
      rw [hdig]
      simp
  · rw [if_neg h]
    decide

theorem sanitizeChar_fixed {c : Char} (h : goodChar c = true) : sanitizeChar c = c := by
  unfold goodChar at h
  rcases Bool.or_eq_true _ _ |>.mp h with h2 | hund
  · rcases Bool.or_eq_true _ _ |>.mp h2 with hlo | hdig
    · obtain ⟨h1, h2'⟩ := (isLower_iff c).mp hlo
      unfold sanitizeChar
      rw [if_pos (by unfold Char.isAlphanum Char.isAlpha; rw [hlo]; simp)]
      exact toLower_of_not_upperRange (by omega)
    · obtain ⟨h1, h2'⟩ := (isDigit_iff c).mp hdig
      unfold sanitizeChar
      rw [if_pos (by unfold Char.isAlphanum; rw [hdig]; simp)]
      exact toLower_of_not_upperRange (by omega)
  · have hc : c = '_' := by simpa using hund
    subst hc
    decide

theorem sanitize_all_good (s : String) : (sanitize s).data.all goodChar = true := by
  unfold sanitize
  rw [List.all_eq_true]
  intro c hc
  rw [List.mem_map] at hc
  obtain ⟨a, _, rfl⟩ := hc
  exact sanitizeChar_good a

theorem sanitize_idempotent (s : String) : sanitize (sanitize s) = sanitize s := by
  unfold sanitize
  congr 1
  simp only [List.map_map]
  apply List.map_congr_left
  intro a _
  exact sanitizeChar_fixed (sanitizeChar_good a)

/-- C9: `sanitize` (the spec's `folderToken`) is a pure function that
replaces every non-alphanumeric character by `_` and lowercases the
result, so every output character is a lowercase ASCII letter, a digit or
an underscore; it is idempotent; and it maps `"Front Door!!"` to
`"front_door__"`. -/
theorem sanitize_spec :
    (∀ s : String, (sanitize s).data.all goodChar = true) ∧
    (∀ s : String, sanitize (sanitize s) = sanitize s) ∧
    sanitize "Front Door!!" = "front_door__" :=
  ⟨sanitize_all_good, sanitize_idempotent, by decide⟩

/-! ## Stream address resolver (claim C8) -/

theorem getStream_eq_some (c : Camera) (u : String) (hs : c.streamUrl = some u) :
    getStreamUrlWithAuth c =
      if u = "" then none
      else if truthy c.username && truthy c.password
          && !(u.data.contains '@')
          && ("rtsp://".data.isPrefixOf u.data) then
        some ("rtsp://" ++ c.username.getD "" ++ ":" ++ c.password.getD "" ++ "@"
            ++ String.mk (u.data.drop 7))
      else some u := by
  unfold getStreamUrlWithAuth
  rw [hs]

theorem getStream_eq_none (c : Camera) (hs : c.streamUrl = none) :
    getStreamUrlWithAuth c = none := by
  unfold getStreamUrlWithAuth
  rw [hs]

theorem string_ne_empty_of_data_ne (s : String) (h : s.data ≠ []) : s ≠ "" := by
  intro he
  apply h
  rw [he]

/-- C8: the stream address resolver returns `none` exactly when the camera
has no configured source address; when the address is an `rtsp://` address,
both credentials are set, and the address does not already contain an `@`
(embedded credentials), it injects `user:pass@` after the scheme; in every
other case it returns the address unchanged — in particular an address that
already carries injected credentials is never injected a second time. -/
theorem getStreamUrlWithAuth_spec (c : Camera) :
    (getStreamUrlWithAuth c = none ↔ (c.streamUrl = none ∨ c.streamUrl = some "")) ∧
    (∀ r : String, c.streamUrl = some ("rtsp://" ++ r) →
        truthy c.username = true → truthy c.password = true →
        ("rtsp://" ++ r).data.contains '@' = false →
        getStreamUrlWithAuth c =
          some ("rtsp://" ++ c.username.getD "" ++ ":" ++ c.password.getD "" ++ "@" ++ r)) ∧
    (∀ u : String, c.streamUrl = some u → u ≠ "" →
        (truthy c.username = false ∨ truthy c.password = false ∨
          u.data.contains '@' = true ∨ "rtsp://".data.isPrefixOf u.data = false) →
        getStreamUrlWithAuth c = some u) ∧
    (∀ user pass r : String,
        c.streamUrl = some ("rtsp://" ++ user ++ ":" ++ pass ++ "@" ++ r) →
        getStreamUrlWithAuth c = c.streamUrl) := by
  have condFalse : ∀ u : String,
      (truthy c.username = false ∨ truthy c.password = false ∨
        u.data.contains '@' = true ∨ "rtsp://".data.isPrefixOf u.data = false) →
      (truthy c.username && truthy c.password && !(u.data.contains '@')
        && ("rtsp://".data.isPrefixOf u.data)) = false := by
    intro u hdisj
    rcases hdisj with h | h | h | h
    · rw [h, Bool.false_and, Bool.false_and, Bool.false_and]
    · rw [h, Bool.and_false, Bool.false_and, Bool.false_and]
    · rw [h, Bool.not_true, Bool.and_false, Bool.false_and]
    · rw [h, Bool.and_false]
  have unchanged : ∀ u : String, c.streamUrl = some u → u ≠ "" →
      (truthy c.username = false ∨ truthy c.password = false ∨
        u.data.contains '@' = true ∨ "rtsp://".data.isPrefixOf u.data = false) →
      getStreamUrlWithAuth c = some u := by
    intro u hs hne hdisj
    rw [getStream_eq_some c u hs, if_neg hne,
      if_neg (by rw [condFalse u hdisj]; exact Bool.false_ne_true)]
  refine ⟨?_, ?_, unchanged, ?_⟩
  · constructor
    · intro h
      match hs : c.streamUrl with
      | none => exact Or.inl rfl
      | some url =>
        by_cases hu : url = ""
        · subst hu; exact Or.inr rfl
        · exfalso
          rw [getStream_eq_some c url hs, if_neg hu] at h
          by_cases hc : (truthy c.username && truthy c.password
              && !(url.data.contains '@') && ("rtsp://".data.isPrefixOf url.data)) = true
          · rw [if_pos hc] at h
            exact Option.noConfusion h
          · rw [if_neg hc] at h
            exact Option.noConfusion h
    · intro h
      rcases h with h | h
      · exact getStream_eq_none c h
      · rw [getStream_eq_some c "" h, if_pos rfl]
  · intro r hs hu hp hat
    have hne : ("rtsp://" ++ r) ≠ "" := by
      apply string_ne_empty_of_data_ne
      rw [String.data_append]
      simp
    have hpre : ("rtsp://".data.isPrefixOf ("rtsp://" ++ r).data) = true := by
      rw [String.data_append, List.isPrefixOf_iff_prefix]
      exact List.prefix_append _ _
    have hcond : (truthy c.username && truthy c.password
        && !(("rtsp://" ++ r).data.contains '@')
        && ("rtsp://".data.isPrefixOf ("rtsp://" ++ r).data)) = true := by
      rw [hu, hp, hat, hpre]
      rfl
    rw [getStream_eq_some c _ hs, if_neg hne, if_pos hcond]
    have hdrop : ("rtsp://" ++ r).data.drop 7 = r.data := by
      rw [String.data_append]
      have h7 : ("rtsp://").data.length = 7 := rfl
      rw [← h7, List.drop_left]
    rw [hdrop]
  · intro user pass r hs
    have hat : (("rtsp://" ++ user ++ ":" ++ pass ++ "@" ++ r).data.contains '@') = true := by
      simp only [String.data_append]
      rw [List.contains_eq_any_beq]
      simp
    have hne : ("rtsp://" ++ user ++ ":" ++ pass ++ "@" ++ r) ≠ "" := by
      apply string_ne_empty_of_data_ne
      simp [String.data_append]
    rw [hs]
    exact unchanged _ hs hne (Or.inr (Or.inr (Or.inl hat)))

/-- C8 witness: on a camera with address `rtsp://host/s` and credentials
`u`/`p`, the resolver injects the credentials after the scheme. -/
theorem getStreamUrlWithAuth_spec_witness :
    getStreamUrlWithAuth
      ⟨"c1", "Cam", some ("rtsp://" ++ "host/s"), some "u", some "p", CamStatus.ONLINE⟩ =
      some ("rtsp://" ++ "u" ++ ":" ++ "p" ++ "@" ++ "host/s") :=
  (getStreamUrlWithAuth_spec
      ⟨"c1", "Cam", some ("rtsp://" ++ "host/s"), some "u", some "p", CamStatus.ONLINE⟩).2.1
    "host/s" rfl (by decide) (by decide) (by decide)

/-! ## The close handler and restart policy (claim C1) -/

/-- C1 (code bug): the recording process of camera `c1` started at
epoch-ms 1700000000000 and exits cleanly (code 0) at epoch-ms
1700000003000, after only 3 s of uptime — below the 10 s floor — yet the
close handler schedules a restart.  The handler deletes the registry entry
before reading the start timestamp, so the lookup yields nothing, the
timestamp defaults to 0, and the `> 10000` check compares the absolute
epoch time, which always passes — contradicting both the claim and the
handler's own comment ("Only restart if it ran for more than 10 seconds
(avoid crash loops)"). -/
theorem onClose_restarts_after_fast_clean_exit :
    (onClose cam1 (some 0) st3s).timers = "c1" :: st3s.timers ∧
    lookupRec (eraseRec st3s.recorders "c1") "c1" = none := by
  constructor
  · rfl
  · rfl

/-! ## Stop requests (claim C4) -/

theorem lookupRec_eraseRec (l : List (String × RecEntry)) (id : String) :
    lookupRec (eraseRec l id) id = none := by
  unfold lookupRec eraseRec
  induction l with
  | nil => rfl
  | cons p t ih =>
    by_cases hp : p.1 = id
    · rw [List.filter_cons, if_neg (by simp [hp])]
      exact ih
    · rw [List.filter_cons, if_pos (by simp [hp])]
      rw [List.find?_cons_of_neg _ (by simp [hp])]
      exact ih

theorem stopRecording_eq (env : Env) (s : SupState) (cameraId : String) (e : RecEntry)
    (h : lookupRec s.recorders cameraId = some e) :
    stopRecording env s cameraId =
      { s with signaled := e.pid :: s.signaled
               recorders := eraseRec s.recorders cameraId } := by
  unfold stopRecording
  rw [h]
  by_cases hk : env.killFails e.pid = true
  · exact if_pos hk
  · exact if_neg hk

/-- C4: a stop request for a camera id with a live session removes the
registry entry and attempts the termination signal in the same synchronous
step: the process-exit bookkeeping is untouched (the exit callback is not
awaited), the state is the same whether or not the kill throws (a dead
process's exception is swallowed), and after the stop the registry lookup
for the id is `none`, so a subsequent start never observes a stale
handle. -/
theorem stopRecording_spec (env env' : Env) (s : SupState) (cameraId : String)
    (e : RecEntry) (h : lookupRec s.recorders cameraId = some e) :
    (stopRecording env s cameraId).recorders = eraseRec s.recorders cameraId ∧
    lookupRec (stopRecording env s cameraId).recorders cameraId = none ∧
    e.pid ∈ (stopRecording env s cameraId).signaled ∧
    (stopRecording env s cameraId).closed = s.closed ∧
    (stopRecording env s cameraId).procCam = s.procCam ∧
    stopRecording env s cameraId = stopRecording env' s cameraId := by
  rw [stopRecording_eq env s cameraId e h, stopRecording_eq env' s cameraId e h]
  refine ⟨rfl, ?_, ?_, rfl, rfl, rfl⟩
  · exact lookupRec_eraseRec s.recorders cameraId
  · exact List.mem_cons_self e.pid s.signaled

/-- C4 witness: stopping `c1` in the concrete 3 s state removes its entry,
records the signal to pid 7, and leaves the exit bookkeeping alone. -/
theorem stopRecording_spec_witness :
    (stopRecording happyEnv st3s "c1").recorders = eraseRec st3s.recorders "c1" ∧
    lookupRec (stopRecording happyEnv st3s "c1").recorders "c1" = none ∧
    (7 : Nat) ∈ (stopRecording happyEnv st3s "c1").signaled ∧
    (stopRecording happyEnv st3s "c1").closed = st3s.closed ∧
    (stopRecording happyEnv st3s "c1").procCam = st3s.procCam ∧
    stopRecording happyEnv st3s "c1" = stopRecording happyEnv st3s "c1" :=
  stopRecording_spec happyEnv happyEnv st3s "c1" ⟨7, 1700000000000⟩ rfl

/-! ## Restart timers re-read current records (claim C5) -/

/-- C5: a firing restart timer consults the camera records as they are at
firing time: when the id no longer occurs, only the timer itself is
consumed (registry, processes, folders all unchanged); when a record with
the id exists now, the start request is issued for that current record. -/
theorem fireTimer_spec (env : Env) (s : SupState) (camId : String) :
    (s.cams.find? (fun c => c.id == camId) = none →
      fireTimer env camId s = { s with timers := s.timers.erase camId }) ∧
    (∀ cur : Camera, s.cams.find? (fun c => c.id == camId) = some cur →
      fireTimer env camId s =
        startRecording env cur { s with timers := s.timers.erase camId }) := by
  constructor
  · intro h
    unfold fireTimer
    dsimp only
    rw [h]
  · intro cur h
    unfold fireTimer
    dsimp only
    rw [h]

/-- C5 witness: a timer for an id whose camera was deleted in the interim
performs nothing beyond consuming itself. -/
theorem fireTimer_spec_witness :
    fireTimer happyEnv "ghost" st3s = { st3s with timers := st3s.timers.erase "ghost" } :=
  (fireTimer_spec happyEnv st3s "ghost").1 rfl

/-! ## Silent no-op starts (claim C6) -/

theorem stopRecording_fields (env : Env) (s : SupState) (cameraId : String) :
    (stopRecording env s cameraId).procCam = s.procCam ∧
    (stopRecording env s cameraId).nextPid = s.nextPid ∧
    (stopRecording env s cameraId).folders = s.folders ∧
    (stopRecording env s cameraId).errors = s.errors ∧
    (stopRecording env s cameraId).timers = s.timers ∧
    (stopRecording env s cameraId).cams = s.cams ∧
    (stopRecording env s cameraId).config = s.config ∧
    (stopRecording env s cameraId).now = s.now ∧
    (stopRecording env s cameraId).closed = s.closed := by
  unfold stopRecording
  split
  · exact ⟨rfl, rfl, rfl, rfl, rfl, rfl, rfl, rfl, rfl⟩
  · split
    · exact ⟨rfl, rfl, rfl, rfl, rfl, rfl, rfl, rfl, rfl⟩
    · exact ⟨rfl, rfl, rfl, rfl, rfl, rfl, rfl, rfl, rfl⟩

theorem stopRecording_recorders_sub (env : Env) (s : SupState) (cameraId : String) :
    ∀ p, p ∈ (stopRecording env s cameraId).recorders → p ∈ s.recorders := by
  unfold stopRecording
  split
  · exact fun p hp => hp
  · split
    · intro p hp
      exact (List.mem_filter.mp hp).1
    · intro p hp
      exact (List.mem_filter.mp hp).1

theorem startBody_skip (env : Env) (cam : Camera) (s : SupState)
    (h : (cam.status ≠ CamStatus.ONLINE ∧ cam.status ≠ CamStatus.RECORDING) ∨
      getStreamUrlWithAuth cam = none) :
    startBody env cam s = s := by
  unfold startBody
  by_cases hst : cam.status ≠ CamStatus.ONLINE ∧ cam.status ≠ CamStatus.RECORDING
  · rw [if_pos hst]
  · rw [if_neg hst]
    have hurl : getStreamUrlWithAuth cam = none := by
      rcases h with h | h
      · exact absurd h hst
      · exact h
    rw [hurl]

/-- C6: a start request is a silent no-op — no process is spawned, no
registry entry is created, no output folder is created, and no error is
logged — whenever the recording root is unset, the camera's status is
neither ONLINE nor RECORDING, or the resolved stream address is null. -/
theorem startRecording_noop (env : Env) (cam : Camera) (s : SupState)
    (h : truthy s.config.recordingPath = false ∨
      (cam.status ≠ CamStatus.ONLINE ∧ cam.status ≠ CamStatus.RECORDING) ∨
      getStreamUrlWithAuth cam = none) :
    (startRecording env cam s).procCam = s.procCam ∧
    (startRecording env cam s).nextPid = s.nextPid ∧
    (startRecording env cam s).folders = s.folders ∧
    (startRecording env cam s).errors = s.errors ∧
    (∀ p, p ∈ (startRecording env cam s).recorders → p ∈ s.recorders) := by
  unfold startRecording
  by_cases hff : env.ffmpegInstalled = false
  · rw [if_pos hff]
    exact ⟨rfl, rfl, rfl, rfl, fun p hp => hp⟩
  · rw [if_neg hff]
    by_cases hpath : truthy s.config.recordingPath = false
    · rw [if_pos hpath]
      exact ⟨rfl, rfl, rfl, rfl, fun p hp => hp⟩
    · rw [if_neg hpath]
      have hrest : (cam.status ≠ CamStatus.ONLINE ∧ cam.status ≠ CamStatus.RECORDING) ∨
          getStreamUrlWithAuth cam = none := by
        rcases h with h | h | h
        · exact absurd h hpath
        · exact Or.inl h
        · exact Or.inr h
      by_cases hlk : (lookupRec s.recorders cam.id).isSome = true
      · rw [if_pos hlk, startBody_skip env cam _ hrest]
        obtain ⟨h1, h2, h3, h4, _, _, _, _, _⟩ := stopRecording_fields env s cam.id
        exact ⟨h1, h2, h3, h4, stopRecording_recorders_sub env s cam.id⟩
      · rw [if_neg hlk, startBody_skip env cam s hrest]
        exact ⟨rfl, rfl, rfl, rfl, fun p hp => hp⟩

/-- C6 witness: starting the concrete OFFLINE camera changes neither the
process bookkeeping nor the folders nor the error count. -/
theorem startRecording_noop_witness :
    (startRecording happyEnv camOff st3s).procCam = st3s.procCam ∧
    (startRecording happyEnv camOff st3s).nextPid = st3s.nextPid ∧
    (startRecording happyEnv camOff st3s).folders = st3s.folders ∧
    (startRecording happyEnv camOff st3s).errors = st3s.errors ∧
    (∀ p, p ∈ (startRecording happyEnv camOff st3s).recorders → p ∈ st3s.recorders) :=
  startRecording_noop happyEnv camOff st3s (Or.inr (Or.inl (by decide)))

/-! ## Two-tier live-frame proxy (claim C7) -/

/-- C7: when the tier-1 direct fetch of a live-frame request does not
succeed (timeout, exception, or non-2xx response), the handler performs
exactly one tier-2 invocation of the external capture process, on the
address with the supplied credentials embedded component-wise into the
authority — components already present are left alone, so a fully
credentialed address is unchanged — and when the external tool is not
installed it instead answers with the distinct 502 "could not connect and
FFMPEG is missing" error, performing no tier-2 invocation at all. -/
theorem proxy_fallback_spec (url : String) (obj : UrlObj) (user pass : String)
    (t1 : Tier1Result) (hurl : url ≠ "") (hu : user ≠ "") (hp : pass ≠ "")
    (ht1 : t1.isOk = false) :
    (proxyHandler true (some url) (some obj) (some user) (some pass) t1 =
      ProxyOutcome.ffmpegFallback (urlToString (embedCreds obj user pass))) ∧
    tier2Invocations (proxyHandler true (some url) (some obj) (some user) (some pass) t1)
      = 1 ∧
    (obj.username ≠ "" → obj.password ≠ "" → embedCreds obj user pass = obj) ∧
    (obj.username = "" → obj.password = "" →
      (embedCreds obj user pass).username = user ∧
      (embedCreds obj user pass).password = pass ∧
      (embedCreds obj user pass).scheme = obj.scheme ∧
      (embedCreds obj user pass).hostRest = obj.hostRest) ∧
    (proxyHandler false (some url) (some obj) (some user) (some pass) t1 =
      ProxyOutcome.unavailable 502
        "Proxy failed: Could not connect to camera and FFMPEG is missing.") ∧
    tier2Invocations (proxyHandler false (some url) (some obj) (some user) (some pass) t1)
      = 0 := by
  have hturl : truthy (some url) = true := by
    unfold truthy
    simpa using hurl
  have htu : truthy (some user) = true := by
    unfold truthy
    simpa using hu
  have htp : truthy (some pass) = true := by
    unfold truthy
    simpa using hp
  have hfb : ∀ ff : Bool, proxyHandler ff (some url) (some obj) (some user) (some pass) t1 =
      if ff then ProxyOutcome.ffmpegFallback (urlToString (embedCreds obj user pass))
      else ProxyOutcome.unavailable 502
        "Proxy failed: Could not connect to camera and FFMPEG is missing." := by
    intro ff
    unfold proxyHandler
    rw [hturl]
    match t1, ht1 with
    | Tier1Result.httpError st, _ =>
      dsimp only
      rw [htu, htp]
      rfl
    | Tier1Result.fetchFailed, _ =>
      dsimp only
      rw [htu, htp]
      rfl
  refine ⟨?_, ?_, ?_, ?_, ?_, ?_⟩
  · rw [hfb true]
    rfl
  · rw [hfb true]
    rfl
  · intro hou hop
    unfold embedCreds
    cases obj with
    | mk scheme username password hostRest =>
      simp only [if_neg hou, if_neg hop]
  · intro hou hop
    unfold embedCreds
    rw [hou, hop]
    exact ⟨rfl, rfl, rfl, rfl⟩
  · rw [hfb false]
    rfl
  · rw [hfb false]
    rfl

/-- C7 witness: with credentials `u`/`p`, a bare `http` address and a
failed tier-1 fetch, the installed-tool handler answers with one ffmpeg
fallback on the credentialed address, and the missing-tool handler with
the distinct 502 error. -/
theorem proxy_fallback_spec_witness :
    (proxyHandler true (some "http://h/img") (some ⟨"http", "", "", "h/img"⟩)
        (some "u") (some "p") Tier1Result.fetchFailed =
      ProxyOutcome.ffmpegFallback
        (urlToString (embedCreds ⟨"http", "", "", "h/img"⟩ "u" "p"))) ∧
    tier2Invocations (proxyHandler false (some "http://h/img") (some ⟨"http", "", "", "h/img"⟩)
        (some "u") (some "p") Tier1Result.fetchFailed) = 0 := by
  have h := proxy_fallback_spec "http://h/img" ⟨"http", "", "", "h/img"⟩ "u" "p"
    Tier1Result.fetchFailed (by decide) (by decide) (by decide) rfl
  exact ⟨h.1, h.2.2.2.2.2⟩

/-! ## Playback path confinement (claim C10) -/

theorem mem_basename_ne_slash (file : String) :
    ∀ c ∈ (basename file).data, c ≠ '/' := by
  intro c hc
  unfold basename at hc
  rw [List.mem_reverse] at hc
  have h := List.mem_takeWhile_imp hc
  simpa using h

theorem basename_no_slash (file : String) :
    (basename file).data.contains '/' = false := by
  rw [List.contains_eq_any_beq, List.any_eq_false]
  intro c hc
  have h := mem_basename_ne_slash file c hc
  simp only [beq_iff_eq]
  intro he
  exact h he.symm

theorem normStep_good (acc : List String) (c : String)
    (h : c ≠ "" ∧ c ≠ "." ∧ c ≠ "..") :
    (if c = "" ∨ c = "." then acc else if c = ".." then acc.dropLast else acc ++ [c])
      = acc ++ [c] := by
  rw [if_neg (by rintro (h1 | h1) <;> [exact h.1 h1; exact h.2.1 h1]), if_neg h.2.2]

theorem normComps_foldl (init : List String) (l : List String)
    (h : ∀ c ∈ l, c ≠ "" ∧ c ≠ "." ∧ c ≠ "..") :
    l.foldl (fun acc c =>
      if c = "" ∨ c = "." then acc
      else if c = ".." then acc.dropLast
      else acc ++ [c]) init = init ++ l := by
  induction l generalizing init with
  | nil => simp
  | cons a t ih =>
    rw [List.foldl_cons, normStep_good init a (h a (List.mem_cons_self a t))]
    rw [ih (init ++ [a]) (fun c hc => h c (List.mem_cons_of_mem a hc))]
    simp

theorem sanitize_component_good (cam : String) (hcam : cam ≠ "") :
    sanitize cam ≠ "" ∧ sanitize cam ≠ "." ∧ sanitize cam ≠ ".." := by
  refine ⟨?_, ?_, ?_⟩
  · intro h
    apply hcam
    have hd : (sanitize cam).data = [] := by rw [h]
    unfold sanitize at hd
    rw [List.map_eq_nil_iff] at hd
    have : cam.data = "".data := hd
    cases cam
    cases this
    rfl
  · intro h
    have hall := sanitize_all_good cam
    rw [h] at hall
    exact absurd hall (by decide)
  · intro h
    have hall := sanitize_all_good cam
    rw [h] at hall
    exact absurd hall (by decide)

theorem jpg_component_good (b : String) :
    (b ++ ".jpg") ≠ "" ∧ (b ++ ".jpg") ≠ "." ∧ (b ++ ".jpg") ≠ ".." := by
  have h4 : (".jpg" : String).data.length = 4 := rfl
  refine ⟨?_, ?_, ?_⟩
  · intro h
    have hl := congrArg (fun s : String => s.data.length) h
    simp only [String.data_append, List.length_append, h4] at hl
    have h0 : ("" : String).data.length = 0 := rfl
    rw [h0] at hl
    omega
  · intro h
    have hl := congrArg (fun s : String => s.data.length) h
    simp only [String.data_append, List.length_append, h4] at hl
    have h1 : ("." : String).data.length = 1 := rfl
    rw [h1] at hl
    omega
  · intro h
    have hl := congrArg (fun s : String => s.data.length) h
    simp only [String.data_append, List.length_append, h4] at hl
    have h2 : (".." : String).data.length = 2 := rfl
    rw [h2] at hl
    omega

/-- C10: the file path resolved by the playback and thumbnail routes is
always `<root>/<t>/<b>` where the camera token `t = sanitize cam` contains
only lowercase alphanumerics and underscores and `b = basename file`
contains no path separator; consequently, for any normalized recording
root and any choice of the two request parameters — `..` segments and
separators included — the normalized resolved path stays below the
recording root. -/
theorem playback_path_confined (rootComps : List String) (cam file : String)
    (hcam : cam ≠ "")
    (hroot : ∀ r ∈ rootComps, r ≠ "" ∧ r ≠ "." ∧ r ≠ "..") :
    ((sanitize cam).data.all goodChar = true) ∧
    ((basename file).data.contains '/' = false) ∧
    rootComps <+: normComps (playbackComps rootComps cam file) ∧
    rootComps <+: normComps (thumbComps rootComps cam file) := by
  have hstep : ∀ b : String, rootComps <+:
      (if b = "" ∨ b = "." then rootComps ++ [sanitize cam]
       else if b = ".." then (rootComps ++ [sanitize cam]).dropLast
       else rootComps ++ [sanitize cam] ++ [b]) := by
    intro b
    by_cases hb1 : b = "" ∨ b = "."
    · rw [if_pos hb1]
      exact ⟨[sanitize cam], rfl⟩
    · rw [if_neg hb1]
      by_cases hb2 : b = ".."
      · rw [if_pos hb2, List.dropLast_concat]
      · rw [if_neg hb2]
        exact ⟨[sanitize cam] ++ [b], (List.append_assoc rootComps [sanitize cam] [b]).symm⟩
  refine ⟨sanitize_all_good cam, basename_no_slash file, ?_, ?_⟩
  · unfold playbackComps normComps
    rw [show rootComps ++ [sanitize cam, basename file]
        = (rootComps ++ [sanitize cam]) ++ [basename file] by simp]
    rw [List.foldl_append]
    rw [normComps_foldl [] (rootComps ++ [sanitize cam]) ?hgood]
    case hgood =>
      intro c hc
      rcases List.mem_append.mp hc with hc | hc
      · exact hroot c hc
      · rw [List.mem_singleton] at hc
        subst hc
        exact sanitize_component_good cam hcam
    rw [List.nil_append, List.foldl_cons, List.foldl_nil]
    exact hstep (basename file)
  · unfold thumbComps normComps
    rw [show rootComps ++ [sanitize cam, basename file ++ ".jpg"]
        = (rootComps ++ [sanitize cam]) ++ [basename file ++ ".jpg"] by simp]
    rw [List.foldl_append]
    rw [normComps_foldl [] (rootComps ++ [sanitize cam]) ?hgood2]
    case hgood2 =>
      intro c hc
      rcases List.mem_append.mp hc with hc | hc
      · exact hroot c hc
      · rw [List.mem_singleton] at hc
        subst hc
        exact sanitize_component_good cam hcam
    rw [List.nil_append, List.foldl_cons, List.foldl_nil]
    rw [normStep_good _ _ (jpg_component_good (basename file))]
    exact ⟨[sanitize cam] ++ [basename file ++ ".jpg"],
      (List.append_assoc rootComps [sanitize cam] [basename file ++ ".jpg"]).symm⟩

/-- C10 witness: against the root `/mnt/rec`, the traversal attempt
`cam = "../.."`, `file = "../../etc/passwd"` still resolves below the
root: the token is `_____`, the file component `passwd`. -/
theorem playback_path_confined_witness :
    ((sanitize "../..").data.all goodChar = true) ∧
    ((basename "../../etc/passwd").data.contains '/' = false) ∧
    ["mnt", "rec"] <+: normComps (playbackComps ["mnt", "rec"] "../.." "../../etc/passwd") ∧
    ["mnt", "rec"] <+: normComps (thumbComps ["mnt", "rec"] "../.." "../../etc/passwd") :=
  playback_path_confined ["mnt", "rec"] "../.." "../../etc/passwd"
    (by decide) (by decide)

/-! ## Registry key uniqueness over all reachable states (claim C2) -/

theorem nodupkeys_eraseRec (l : List (String × RecEntry)) (id : String)
    (h : (l.map Prod.fst).Nodup) : ((eraseRec l id).map Prod.fst).Nodup :=
  List.Nodup.sublist ((List.filter_sublist l).map Prod.fst) h

theorem nodupkeys_setRec (l : List (String × RecEntry)) (id : String) (e : RecEntry)
    (h : (l.map Prod.fst).Nodup) : ((setRec l id e).map Prod.fst).Nodup := by
  unfold setRec
  by_cases hf : (l.find? (fun p => p.1 == id)).isSome = true
  · rw [if_pos hf]
    have hkeys : (l.map (fun p => if p.1 == id then (id, e) else p)).map Prod.fst
        = l.map Prod.fst := by
      rw [List.map_map]
      apply List.map_congr_left
      intro p _
      by_cases hp : (p.1 == id) = true
      · show Prod.fst (if p.1 == id then (id, e) else p) = p.1
        rw [if_pos hp]
        exact (beq_iff_eq.mp hp).symm
      · show Prod.fst (if p.1 == id then (id, e) else p) = p.1
        rw [if_neg hp]
    rw [hkeys]
    exact h
  · rw [if_neg hf]
    rw [List.map_append]
    refine List.Nodup.append h (by simp) ?_
    intro a ha hb
    rw [List.mem_map] at ha
    obtain ⟨p, hpl, hpa⟩ := ha
    simp only [List.map_cons, List.map_nil, List.mem_singleton] at hb
    have hnone : l.find? (fun p => p.1 == id) = none :=
      Option.not_isSome_iff_eq_none.mp hf
    rw [List.find?_eq_none] at hnone
    exact hnone p hpl (by rw [hpa, hb]; exact beq_self_eq_true id)

theorem nodupkeys_stopRecording (env : Env) (s : SupState) (id : String)
    (h : (recKeys s).Nodup) : (recKeys (stopRecording env s id)).Nodup := by
  unfold stopRecording
  split
  · exact h
  · split
    · exact nodupkeys_eraseRec s.recorders id h
    · exact nodupkeys_eraseRec s.recorders id h

theorem nodupkeys_spawnStep (env : Env) (cam : Camera) (s : SupState)
    (h : (recKeys s).Nodup) : (recKeys (spawnStep env cam s)).Nodup := by
  unfold spawnStep
  split
  · exact h
  · exact nodupkeys_setRec s.recorders cam.id _ h

theorem nodupkeys_startBody (env : Env) (cam : Camera) (s : SupState)
    (h : (recKeys s).Nodup) : (recKeys (startBody env cam s)).Nodup := by
  unfold startBody
  split
  · exact h
  · split
    · exact h
    · dsimp only
      split
      · exact nodupkeys_spawnStep env cam s h
      · split
        · exact h
        · exact nodupkeys_spawnStep env cam _ h

theorem nodupkeys_startRecording (env : Env) (cam : Camera) (s : SupState)
    (h : (recKeys s).Nodup) : (recKeys (startRecording env cam s)).Nodup := by
  unfold startRecording
  split
  · exact h
  · split
    · exact h
    · split
      · exact nodupkeys_startBody env cam _ (nodupkeys_stopRecording env s cam.id h)
      · exact nodupkeys_startBody env cam s h

theorem nodupkeys_onClose (cam : Camera) (code : ExitCode) (s : SupState)
    (h : (recKeys s).Nodup) : (recKeys (onClose cam code s)).Nodup := by
  unfold onClose
  dsimp only
  split
  · exact nodupkeys_eraseRec s.recorders cam.id h
  · exact nodupkeys_eraseRec s.recorders cam.id h

theorem nodupkeys_closeEvent (cam : Camera) (pid : Nat) (code : ExitCode) (s : SupState)
    (h : (recKeys s).Nodup) : (recKeys (closeEvent cam pid code s)).Nodup :=
  nodupkeys_onClose cam code _ h

theorem nodupkeys_procErrorEvent (cam : Camera) (s : SupState)
    (h : (recKeys s).Nodup) : (recKeys (procErrorEvent cam s)).Nodup :=
  nodupkeys_eraseRec s.recorders cam.id h

theorem nodupkeys_fireTimer (env : Env) (camId : String) (s : SupState)
    (h : (recKeys s).Nodup) : (recKeys (fireTimer env camId s)).Nodup := by
  unfold fireTimer
  dsimp only
  split
  · exact h
  · exact nodupkeys_startRecording env _ _ h

theorem foldl_preserves {α : Type} (P : SupState → Prop) (f : SupState → α → SupState)
    (hf : ∀ st a, P st → P (f st a)) :
    ∀ (l : List α) (st : SupState), P st → P (l.foldl f st) := by
  intro l
  induction l with
  | nil => exact fun st h => h
  | cons a t ih =>
    intro st h
    rw [List.foldl_cons]
    exact ih _ (hf st a h)

theorem nodupkeys_postCameras (env : Env) (newCams : List Camera) (s : SupState)
    (h : (recKeys s).Nodup) : (recKeys (postCameras env newCams s)).Nodup := by
  unfold postCameras
  dsimp only
  have h1 := foldl_preserves (fun st => (recKeys st).Nodup)
    (fun st newCam =>
      match s.cams.find? (fun c => c.id == newCam.id) with
      | none => startRecording env newCam st
      | some oldCam =>
        if oldCam.streamUrl ≠ newCam.streamUrl ∨ newCam.status ≠ oldCam.status then
          startRecording env newCam st
        else st)
    (fun st newCam hst => by
      dsimp only
      split
      · exact nodupkeys_startRecording env newCam st hst
      · split
        · exact nodupkeys_startRecording env newCam st hst
        · exact hst)
    newCams s h
  have h2 := foldl_preserves (fun st => (recKeys st).Nodup)
    (fun st oldCam =>
      if (newCams.find? (fun c => c.id == oldCam.id)).isSome then st
      else stopRecording env st oldCam.id)
    (fun st oldCam hst => by
      dsimp only
      split
      · exact hst
      · exact nodupkeys_stopRecording env st oldCam.id hst)
    s.cams _ h1
  exact h2

theorem nodupkeys_initializeRecorder (env : Env) (s : SupState)
    (h : (recKeys s).Nodup) : (recKeys (initializeRecorder env s)).Nodup := by
  unfold initializeRecorder
  split
  · exact h
  · exact foldl_preserves (fun st => (recKeys st).Nodup)
      (fun st c => startRecording env c st)
      (fun st c hst => nodupkeys_startRecording env c st hst)
      s.cams s h

theorem nodupkeys_step (env : Env) (s s' : SupState) (hstep : Step env s s')
    (h : (recKeys s).Nodup) : (recKeys s').Nodup := by
  cases hstep with
  | post newCams => exact nodupkeys_postCameras env newCams s h
  | initSweep => exact nodupkeys_initializeRecorder env s h
  | configChange cfg => exact nodupkeys_initializeRecorder env _ h
  | configSet cfg => exact h
  | close pid cam code hmem hnc => exact nodupkeys_closeEvent cam pid code s h
  | procErr pid cam hmem => exact nodupkeys_procErrorEvent cam s h
  | fire camId hmem => exact nodupkeys_fireTimer env camId s h
  | tick d => exact h

theorem nodupkeys_reachable (env : Env) (cams : List Camera) (cfg : Config) (t : Nat)
    (s : SupState) (h : Reachable env (initState cams cfg t) s) :
    (recKeys s).Nodup := by
  induction h with
  | refl => exact List.nodup_nil
  | step hr hstep ih => exact nodupkeys_step env _ _ hstep ih

theorem count_filter_le_one (l : List (String × RecEntry)) (id : String)
    (h : (l.map Prod.fst).Nodup) :
    (l.filter (fun p => p.1 == id)).length ≤ 1 := by
  induction l with
  | nil => simp
  | cons p t ih =>
    rw [List.map_cons, List.nodup_cons] at h
    obtain ⟨hp, ht⟩ := h
    by_cases hpe : (p.1 == id) = true
    · rw [List.filter_cons, if_pos hpe]
      have hid : p.1 = id := beq_iff_eq.mp hpe
      have hnone : t.filter (fun q => q.1 == id) = [] := by
        rw [List.filter_eq_nil_iff]
        intro q hq hqe
        apply hp
        rw [List.mem_map]
        exact ⟨q, hq, by rw [beq_iff_eq.mp hqe, ← hid]⟩
      rw [hnone]
      simp
    · rw [List.filter_cons, if_neg hpe]
      exact ih ht

/-- C2: in every state reachable by the supervisor from boot, the
`recorders` registry holds at most one entry per camera identifier; and a
start request for an identifier that currently has a live session factors
through the synchronous stop of that session — the old process is
signaled, its entry is gone (the lookup is `none`), and only then does the
start body run and register the new handle. -/
theorem registry_invariant_spec (env : Env) (cams : List Camera) (cfg : Config) (t : Nat)
    (s : SupState) (h : Reachable env (initState cams cfg t) s) :
    (∀ id : String, (s.recorders.filter (fun p => p.1 == id)).length ≤ 1) ∧
    (∀ cam : Camera, ∀ e : RecEntry,
      env.ffmpegInstalled = true → truthy s.config.recordingPath = true →
      lookupRec s.recorders cam.id = some e →
      startRecording env cam s = startBody env cam (stopRecording env s cam.id) ∧
      e.pid ∈ (stopRecording env s cam.id).signaled ∧
      lookupRec (stopRecording env s cam.id).recorders cam.id = none) := by
  constructor
  · intro id
    exact count_filter_le_one s.recorders id (nodupkeys_reachable env cams cfg t s h)
  · intro cam e hff hpath hlk
    refine ⟨?_, ?_, ?_⟩
    · unfold startRecording
      rw [if_neg (by rw [hff]; exact fun hc => Bool.noConfusion hc),
        if_neg (by rw [hpath]; exact fun hc => Bool.noConfusion hc),
        if_pos (by rw [hlk]; rfl)]
    · rw [stopRecording_eq env s cam.id e hlk]
      exact List.mem_cons_self e.pid s.signaled
    · rw [stopRecording_eq env s cam.id e hlk]
      exact lookupRec_eraseRec s.recorders cam.id

/-- C2 witness: after the boot sweep started the concrete camera, the
registry holds at most one entry for `c1`. -/
theorem registry_invariant_spec_witness :
    (((initializeRecorder happyEnv (initState [cam1] cfg1 1000)).recorders.filter
      (fun p => p.1 == "c1")).length ≤ 1) :=
  (registry_invariant_spec happyEnv [cam1] cfg1 1000 _
    (Reachable.step Reachable.refl (Step.initSweep _))).1 "c1"

/-! ## Pending restart timers (claim C3) -/

theorem timers_stopRecording (env : Env) (s : SupState) (id : String) :
    (stopRecording env s id).timers = s.timers :=
  (stopRecording_fields env s id).2.2.2.2.1

theorem timers_spawnStep (env : Env) (cam : Camera) (s : SupState) :
    (spawnStep env cam s).timers = s.timers := by
  unfold spawnStep
  split
  · rfl
  · rfl

theorem timers_startBody (env : Env) (cam : Camera) (s : SupState) :
    (startBody env cam s).timers = s.timers := by
  unfold startBody
  split
  · rfl
  · split
    · rfl
    · dsimp only
      split
      · exact timers_spawnStep env cam s
      · split
        · rfl
        · exact timers_spawnStep env cam _

theorem timers_startRecording (env : Env) (cam : Camera) (s : SupState) :
    (startRecording env cam s).timers = s.timers := by
  unfold startRecording
  split
  · rfl
  · split
    · rfl
    · split
      · rw [timers_startBody, timers_stopRecording]
      · exact timers_startBody env cam s

theorem timers_postCameras (env : Env) (newCams : List Camera) (s : SupState) :
    (postCameras env newCams s).timers = s.timers := by
  unfold postCameras
  dsimp only
  have h1 := foldl_preserves (fun st => st.timers = s.timers)
    (fun st newCam =>
      match s.cams.find? (fun c => c.id == newCam.id) with
      | none => startRecording env newCam st
      | some oldCam =>
        if oldCam.streamUrl ≠ newCam.streamUrl ∨ newCam.status ≠ oldCam.status then
          startRecording env newCam st
        else st)
    (fun st newCam hst => by
      dsimp only
      split
      · rw [timers_startRecording]; exact hst
      · split
        · rw [timers_startRecording]; exact hst
        · exact hst)
    newCams s rfl
  exact foldl_preserves (fun st => st.timers = s.timers)
    (fun st oldCam =>
      if (newCams.find? (fun c => c.id == oldCam.id)).isSome then st
      else stopRecording env st oldCam.id)
    (fun st oldCam hst => by
      dsimp only
      split
      · exact hst
      · rw [timers_stopRecording]; exact hst)
    s.cams _ h1

theorem timers_initializeRecorder (env : Env) (s : SupState) :
    (initializeRecorder env s).timers = s.timers := by
  unfold initializeRecorder
  split
  · rfl
  · exact foldl_preserves (fun st => st.timers = s.timers)
      (fun st c => startRecording env c st)
      (fun st c hst => by dsimp only; rw [timers_startRecording]; exact hst)
      s.cams s rfl

theorem timers_fireTimer (env : Env) (camId : String) (s : SupState) :
    (fireTimer env camId s).timers = s.timers.erase camId := by
  unfold fireTimer
  dsimp only
  split
  · rfl
  · exact timers_startRecording env _ _

/-- C3 amended: every single supervisor step schedules at most one new
restart entry for an identifier — the pending count for any id grows by at
most one per step.  (The original global claim — never two pending entries
for the same id — is refuted by `two_pending_restarts_reachable`.) -/
theorem step_timer_count_le (env : Env) (s s' : SupState) (hstep : Step env s s')
    (id : String) : s'.timers.count id ≤ s.timers.count id + 1 := by
  cases hstep with
  | post newCams =>
    rw [timers_postCameras]
    exact Nat.le_succ _
  | initSweep =>
    rw [timers_initializeRecorder]
    exact Nat.le_succ _
  | configChange cfg =>
    rw [timers_initializeRecorder]
    exact Nat.le_succ _
  | configSet cfg => exact Nat.le_succ _
  | close pid cam code hmem hnc =>
    unfold closeEvent onClose
    dsimp only
    split
    · rw [List.count_cons]
      by_cases hid : (cam.id == id) = true
      · rw [if_pos hid]
      · rw [if_neg hid]
        omega
    · exact Nat.le_succ _
  | procErr pid cam hmem => exact Nat.le_succ _
  | fire camId hmem =>
    rw [timers_fireTimer]
    exact Nat.le_succ_of_le (List.Sublist.count_le (List.erase_sublist _ _) id)
  | tick d => exact Nat.le_succ _

/-- C3 amended witness: a clock tick leaves the pending count for `c1`
within the allowed growth. -/
theorem step_timer_count_le_witness :
    ({ st3s with now := st3s.now + 5 } : SupState).timers.count "c1"
      ≤ st3s.timers.count "c1" + 1 :=
  step_timer_count_le happyEnv st3s _ (Step.tick st3s 5) "c1"

/-- C3 counterexample: a reachable run with two restart timers for `c1`
pending at the same instant.  Boot starts camera `c1` (pid 0); a camera
delete stops it (the kill is delivered but the close event is still
pending); re-adding the camera starts pid 1; pid 0's delayed close event
then fires — it erases pid 1's registry entry and schedules a restart —
and pid 1's crash (exit 1) schedules a second restart while the first is
still pending. -/
theorem two_pending_restarts_reachable :
    ∃ s : SupState, Reachable happyEnv (initState [cam1] cfg1 1700000000000) s ∧
      s.timers.count "c1" = 2 := by
  have h0 : Reachable happyEnv (initState [cam1] cfg1 1700000000000)
      (initState [cam1] cfg1 1700000000000) := Reachable.refl
  have hreach := Reachable.step (Reachable.step (Reachable.step (Reachable.step
      (Reachable.step h0 (Step.initSweep _))
      (Step.post _ []))
      (Step.post _ [cam1]))
      (Step.close _ 0 cam1 none (by decide) (by decide)))
      (Step.close _ 1 cam1 (some 1) (by decide) (by decide))
  exact ⟨_, hreach, by decide⟩

end CamHome
